import Mathlib

/-!
Verification development for the profile-fetcher CLI (filterProfiles).

The definitions below are a shallow embedding of the JavaScript source
(src/index.js and its near-identical revisions under src/unnamed/).  JSON
values are modelled by an inductive type; JavaScript machine doubles are
modelled as exact rationals (every number reaching the filter engine comes
from JSON decimal literals, and all comparisons performed by the code agree
with the exact rational comparisons on such inputs); host primitives
(parseFloat, ToNumber, Date.parse, toLowerCase, includes) are modelled on
the fragment the program exercises: ASCII case mapping, decimal numeric
literals, and the ECMAScript-specified ISO-8601 date-time string format,
with the host time zone fixed to UTC.
-/

/-- Exact rational number representing a JavaScript double.  The
denominator is positive in every value the embedding constructs (always a
power of ten).  Comparisons are by cross multiplication, which agrees with
IEEE-754 comparison on the decimal-literal values the program handles. -/
structure JsNum where
  num : Int
  den : Nat
deriving DecidableEq

instance : OfNat JsNum n := ⟨⟨n, 1⟩⟩

instance : Neg JsNum := ⟨fun q => ⟨-q.num, q.den⟩⟩

/-- `a < b` on modelled doubles. -/
def JsNum.blt (a b : JsNum) : Bool :=
  a.num * (b.den : Int) < b.num * (a.den : Int)

/-- `a <= b` on modelled doubles. -/
def JsNum.ble (a b : JsNum) : Bool :=
  a.num * (b.den : Int) ≤ b.num * (a.den : Int)

/-- `a === b` on modelled doubles. -/
def JsNum.beq (a b : JsNum) : Bool :=
  a.num * (b.den : Int) == b.num * (a.den : Int)

/-- Model of a JavaScript/JSON runtime value as seen by the filter engine.
`undef` stands for the JavaScript value `undefined` (in particular the
result of reading an absent field). -/
inductive JSValue where
  | null : JSValue
  | undef : JSValue
  | bool : Bool → JSValue
  | num : JsNum → JSValue
  | str : String → JSValue
  | arr : List JSValue → JSValue
  | obj : List (String × JSValue) → JSValue

/-- `value === null || value === undefined` -/
def JSValue.isNullOrUndef : JSValue → Bool
  | .null => true
  | .undef => true
  | _ => false

/-- `typeof value === 'boolean'` -/
def JSValue.isBool : JSValue → Bool
  | .bool _ => true
  | _ => false

/-! ### String primitives (ASCII model) -/

/-- Decimal digit run to a natural number (the value of `parseInt` on an
all-digit string, and of the digit groups captured by the source's
regular expressions). -/
def digitsToNat (cs : List Char) : Nat :=
  cs.foldl (fun a c => a * 10 + (c.toNat - 48)) 0

/-- Is `p` a prefix of `l` (character lists)? -/
def listIsPrefix : List Char → List Char → Bool
  | [], _ => true
  | _ :: _, [] => false
  | a :: t, b :: u => a == b && listIsPrefix t u

/-- Does `hay` contain `needle` as a contiguous substring?  Model of
JavaScript `String.prototype.includes`. -/
def listContainsSub (hay needle : List Char) : Bool :=
  if listIsPrefix needle hay then true
  else
    match hay with
    | [] => false
    | _ :: t => listContainsSub t needle

/-- Model of `s.includes(sub)`. -/
def jsIncludes (s sub : String) : Bool :=
  listContainsSub s.toList sub.toList

/-- Model of `s.toLowerCase()` restricted to the ASCII case mapping. -/
def jsToLower (s : String) : String :=
  String.mk (s.toList.map Char.toLower)

/-- Join a list of strings with a separator. -/
def strIntercalate (sep : String) : List String → String
  | [] => ""
  | [s] => s
  | s :: rest => s ++ sep ++ strIntercalate sep rest

/-- Model of `s.split(sep)` for a one-character separator. -/
def splitOnCharList (sep : Char) (cs : List Char) : List (List Char) :=
  match cs with
  | [] => [[]]
  | c :: t =>
    let rest := splitOnCharList sep t
    if c = sep then [] :: rest
    else
      match rest with
      | [] => [[c]]
      | r :: rs => (c :: r) :: rs

/-- Model of `s.split(sep)` for a one-character separator string. -/
def strSplitOnChar (sep : Char) (s : String) : List String :=
  (splitOnCharList sep s.toList).map String.mk

/-- Model of `s.startsWith(p)`. -/
def strStartsWith (s p : String) : Bool :=
  listIsPrefix p.toList s.toList

/-- Model of `s.endsWith(p)`. -/
def strEndsWith (s p : String) : Bool :=
  listIsPrefix p.toList.reverse s.toList.reverse

/-! ### Number rendering (`String(value)` on numbers)

JavaScript renders a finite double with the shortest decimal expansion
that round-trips.  Every number the program manipulates originates from a
JSON decimal literal, for which that expansion is the exact terminating
decimal expansion of the rational value.  `jsNumToString` produces that
expansion when it terminates (reduced denominator of the form 2^a * 5^b);
other rationals do not arise as JavaScript doubles and get a fallback
rendering. -/

/-- Least `k ≤ fuel` with `d ∣ 10 ^ k`, if any. -/
def findPow10 (d : Nat) : Nat → Option Nat
  | 0 => if d ∣ 1 then some 0 else none
  | fuel + 1 =>
    match findPow10 d fuel with
    | some k => some k
    | none => if d ∣ 10 ^ (fuel + 1) then some (fuel + 1) else none

/-- Exact terminating decimal expansion of a modelled double (JavaScript
`Number.prototype.toString`). -/
def jsNumToString (q : JsNum) : String :=
  if q.den = 0 then "NaN"
  else
    let sign := if q.num < 0 then "-" else ""
    let n := q.num.natAbs
    let g := Nat.gcd n q.den
    let n1 := n / g
    let d1 := q.den / g
    match findPow10 d1 64 with
    | some k =>
      let scaled := n1 * 10 ^ k / d1
      let intPart := scaled / 10 ^ k
      let frac := scaled % 10 ^ k
      if k = 0 then sign ++ toString intPart
      else
        let fracStr := toString frac
        let padded := String.mk (List.replicate (k - fracStr.length) '0') ++ fracStr
        sign ++ toString intPart ++ "." ++ padded
    | none => sign ++ toString n1 ++ "/" ++ toString d1

/-- Model of JavaScript `String(value)`.  Arrays render as their elements
joined with commas, with `null`/`undefined` elements rendered empty; plain
objects render as the tag string. -/
def jsToString : JSValue → String
  | .null => "null"
  | .undef => "undefined"
  | .bool b => if b then "true" else "false"
  | .num q => jsNumToString q
  | .str s => s
  | .arr xs => strIntercalate "," (jsArrParts xs)
  | .obj _ => "[object Object]"
where
  /-- Element rendering inside `Array.prototype.toString`. -/
  jsArrParts : List JSValue → List String
  | [] => []
  | v :: vs =>
    (match v with
     | .null => ""
     | .undef => ""
     | w => jsToString w) :: jsArrParts vs

/-! ### Numeric parsing primitives -/

/-- White-space characters recognised by `parseFloat`/`ToNumber`
(ASCII fragment). -/
def isJsWhitespace (c : Char) : Bool :=
  c = ' ' || c = '\t' || c = '\n' || c = '\r' || c = '\x0b' || c = '\x0c'

/-- Exact value of `intDigits.fracDigits` as a single fraction over a
power of ten. -/
def decimalValue (intDigits fracDigits : List Char) : JsNum :=
  ⟨(digitsToNat intDigits * 10 ^ fracDigits.length + digitsToNat fracDigits : Nat),
   10 ^ fracDigits.length⟩

/-- Apply a base-10 exponent to a modelled double. -/
def applyExp10 (q : JsNum) (negExp : Bool) (e : Nat) : JsNum :=
  if negExp then ⟨q.num, q.den * 10 ^ e⟩ else ⟨q.num * 10 ^ e, q.den⟩

/-- Longest-prefix magnitude parse used by `parseFloat`: digits, optional
decimal point and digits, optional exponent (consumed only when followed
by at least one digit).  Returns `none` when no digit is found. -/
def parseFloatMag (cs : List Char) : Option JsNum :=
  let intD := cs.takeWhile Char.isDigit
  let r1 := cs.dropWhile Char.isDigit
  let fracD :=
    match r1 with
    | '.' :: t => t.takeWhile Char.isDigit
    | _ => []
  let r2 :=
    match r1 with
    | '.' :: t => t.dropWhile Char.isDigit
    | _ => r1
  if intD.isEmpty && fracD.isEmpty then none
  else
    let mantissa := decimalValue intD fracD
    match r2 with
    | 'e' :: t => some (parseExpTail mantissa t)
    | 'E' :: t => some (parseExpTail mantissa t)
    | _ => some mantissa
where
  /-- Exponent tail: sign and digits; an `e` not followed by digits is
  simply not consumed (longest valid prefix semantics). -/
  parseExpTail (mantissa : JsNum) (t : List Char) : JsNum :=
    match t with
    | '-' :: u =>
      let ds := u.takeWhile Char.isDigit
      if ds.isEmpty then mantissa else applyExp10 mantissa true (digitsToNat ds)
    | '+' :: u =>
      let ds := u.takeWhile Char.isDigit
      if ds.isEmpty then mantissa else applyExp10 mantissa false (digitsToNat ds)
    | u =>
      let ds := u.takeWhile Char.isDigit
      if ds.isEmpty then mantissa else applyExp10 mantissa false (digitsToNat ds)

/-- Model of JavaScript `parseFloat` on the string form of a value:
skip leading white space, optional sign, then the longest decimal-literal
prefix; `none` models `NaN`.  (The `Infinity` and hexadecimal forms are
outside the modelled fragment; they do not arise from the program's
data.) -/
def jsParseFloat (s : String) : Option JsNum :=
  let cs := s.toList.dropWhile isJsWhitespace
  match cs with
  | '-' :: rest => (parseFloatMag rest).map Neg.neg
  | '+' :: rest => parseFloatMag rest
  | rest => parseFloatMag rest

/-- Full-string decimal parse for `ToNumber` on strings: the whole
(trimmed) string must be a decimal literal. -/
def parseFullDecimal (cs : List Char) : Option JsNum :=
  let (neg, r0) :=
    match cs with
    | '-' :: t => (true, t)
    | '+' :: t => (false, t)
    | t => (false, t)
  let intD := r0.takeWhile Char.isDigit
  let r1 := r0.dropWhile Char.isDigit
  let fracD :=
    match r1 with
    | '.' :: t => t.takeWhile Char.isDigit
    | _ => []
  let r2 :=
    match r1 with
    | '.' :: t => t.dropWhile Char.isDigit
    | _ => r1
  if intD.isEmpty && fracD.isEmpty then none
  else
    let mant := decimalValue intD fracD
    let signed : JsNum → JsNum := fun q => if neg then -q else q
    match r2 with
    | [] => some (signed mant)
    | 'e' :: t => parseFullExp signed mant t
    | 'E' :: t => parseFullExp signed mant t
    | _ => none
where
  parseFullExp (signed : JsNum → JsNum) (mant : JsNum) (t : List Char) : Option JsNum :=
    let (negE, u) :=
      match t with
      | '-' :: u1 => (true, u1)
      | '+' :: u1 => (false, u1)
      | u1 => (false, u1)
    let ds := u.takeWhile Char.isDigit
    let rest := u.dropWhile Char.isDigit
    if ds.isEmpty || !rest.isEmpty then none
    else some (signed (applyExp10 mant negE (digitsToNat ds)))

/-- Model of ECMAScript `ToNumber` on a string: trimmed empty string is 0,
otherwise a full decimal literal (hexadecimal and `Infinity` forms are
outside the modelled fragment).  `none` models `NaN`. -/
def jsStrToNumber (s : String) : Option JsNum :=
  let cs := (s.toList.dropWhile isJsWhitespace).reverse.dropWhile isJsWhitespace |>.reverse
  if cs.isEmpty then some 0 else parseFullDecimal cs

/-- Model of ECMAScript `ToNumber` (the coercion performed by the global
`isNaN`); `none` models `NaN`. -/
def jsToNumber : JSValue → Option JsNum
  | .null => some 0
  | .undef => none
  | .bool b => some (if b then 1 else 0)
  | .num q => some q
  | .str s => jsStrToNumber s
  | .arr xs => jsStrToNumber (jsToString (.arr xs))
  | .obj kvs => jsStrToNumber (jsToString (.obj kvs))

/-! ### The condition evaluator: string, boolean and number filters -/

/-- `filterString(value, condition)`:
`String(value).toLowerCase().includes(condition.toLowerCase())`. -/
def filterString (v : JSValue) (c : String) : Bool :=
  jsIncludes (jsToLower (jsToString v)) (jsToLower c)

/-- `filterBoolean(value, condition)`. -/
def filterBoolean (v : JSValue) (c : String) : Bool :=
  let boolCondition := jsToLower c
  let boolValue := jsToLower (jsToString v)
  if boolCondition = "true" || boolCondition = "false" then
    boolValue == boolCondition
  else
    filterString v c

/-- Tail of the numeric-condition regular expression,
`-?\d+\.?\d*` anchored at the end of the string: optional minus, one or
more digits, optional decimal point, zero or more digits. -/
def parseRegexNumber (cs : List Char) : Option JsNum :=
  let (neg, r0) :=
    match cs with
    | '-' :: t => (true, t)
    | t => (false, t)
  let intD := r0.takeWhile Char.isDigit
  let r1 := r0.dropWhile Char.isDigit
  let fracD :=
    match r1 with
    | '.' :: t => t.takeWhile Char.isDigit
    | _ => []
  let r2 :=
    match r1 with
    | '.' :: t => t.dropWhile Char.isDigit
    | _ => r1
  if intD.isEmpty || !r2.isEmpty then none
  else
    let q := decimalValue intD fracD
    some (if neg then -q else q)

/-- Characters matched by `\s` (ASCII fragment). -/
def isRegexSpace (c : Char) : Bool :=
  isJsWhitespace c

/-- Parse of `condition.match(/^([><=]+)?\s*(-?\d+\.?\d*)$/)`: the
operator group is the leading maximal run of `>`/`<`/`=` characters, and
— mirroring `numericMatch[1] || '='` — an absent group defaults to `"="`.
Returns the operator string and the value of the numeric capture. -/
def numCondParse (c : String) : Option (String × JsNum) :=
  let cs := c.toList
  let ops := cs.takeWhile (fun ch => ch = '>' || ch = '<' || ch = '=')
  let r1 := cs.dropWhile (fun ch => ch = '>' || ch = '<' || ch = '=')
  let r2 := r1.dropWhile isRegexSpace
  match parseRegexNumber r2 with
  | some q => some ((if ops.isEmpty then "=" else String.mk ops), q)
  | none => none

/-- The `switch (operator)` of `filterNumber`: any operator string other
than the four relational ones (including `"="`) falls to the `default`
equality branch. -/
def applyNumOp (op : String) (itemValue conditionValue : JsNum) : Bool :=
  if op = ">" then conditionValue.blt itemValue
  else if op = "<" then itemValue.blt conditionValue
  else if op = ">=" then conditionValue.ble itemValue
  else if op = "<=" then itemValue.ble conditionValue
  else itemValue.beq conditionValue

/-- `filterNumber(value, condition)`.  The `isNaN(conditionValue)` check
of the source is vacuous here: the regular expression guarantees the
captured number parses. -/
def filterNumber (v : JSValue) (c : String) : Bool :=
  match numCondParse c with
  | some (op, conditionValue) =>
    match jsParseFloat (jsToString v) with
    | some itemValue => applyNumOp op itemValue conditionValue
    | none => filterString v c
  | none => filterString v c

/-! ### Dates

`new Date(string)` / `Date.parse` are modelled on the ECMAScript Date Time
String Format (the only format the language specification defines):
`YYYY[-MM[-DD]]` optionally followed by `THH:MM[:SS[.sss]]` and an offset
(`Z` or `±HH:MM`).  A date-only form denotes UTC midnight; a date-time
form without offset denotes local time, and the host time zone of the
model is fixed to UTC, so it also denotes UTC.  Timestamps are integer
milliseconds since the Unix epoch.  Implementation-specific legacy
formats (e.g. `MM/DD/YYYY`, month names) are outside the modelled
fragment and parse to `none`. -/

def isLeapYear (y : Int) : Bool :=
  (Int.emod y 4 = 0 && Int.emod y 100 ≠ 0) || Int.emod y 400 = 0

def daysInMonth (y : Int) (m : Nat) : Nat :=
  if m = 2 then (if isLeapYear y then 29 else 28)
  else if m = 4 || m = 6 || m = 9 || m = 11 then 30
  else 31

/-- Days since 1970-01-01 of the civil date `y-m-d` (proleptic Gregorian
calendar). -/
def daysFromCivil (y : Int) (m d : Nat) : Int :=
  let y1 : Int := if m ≤ 2 then y - 1 else y
  let era : Int := Int.fdiv y1 400
  let yoe : Int := y1 - era * 400
  let mp : Int := Int.emod ((m : Int) + 9) 12
  let doy : Int := Int.fdiv (153 * mp + 2) 5 + ((d : Int) - 1)
  let doe : Int := yoe * 365 + Int.fdiv yoe 4 - Int.fdiv yoe 100 + doy
  era * 146097 + doe - 719468

def msPerDay : Int := 86400000

/-- Take exactly `n` leading decimal digits as a number. -/
def takeDigits (n : Nat) (cs : List Char) : Option (Nat × List Char) :=
  let pre := cs.take n
  if pre.length = n && pre.all Char.isDigit then some (digitsToNat pre, cs.drop n)
  else none

/-- Expect one specific character. -/
def expectCh (c : Char) : List Char → Option (List Char)
  | x :: t => if x = c then some t else none
  | [] => none

/-- Time-zone offset in milliseconds: end of input (local = UTC in this
model), `Z`, or `±HH:MM`. -/
def parseTzOffset (cs : List Char) : Option Int :=
  match cs with
  | [] => some 0
  | ['Z'] => some 0
  | '+' :: t => parseHm t false
  | '-' :: t => parseHm t true
  | _ => none
where
  parseHm (t : List Char) (negO : Bool) : Option Int :=
    match takeDigits 2 t with
    | some (h, r1) =>
      match expectCh ':' r1 with
      | some r2 =>
        match takeDigits 2 r2 with
        | some (mi, []) =>
          if h ≤ 23 && mi ≤ 59 then
            let ms : Int := ((h : Int) * 60 + (mi : Int)) * 60000
            some (if negO then -ms else ms)
          else none
        | _ => none
      | none => none
    | none => none

/-- Parse `HH:MM[:SS[.sss]]` plus offset, returning milliseconds into the
day minus the offset. -/
def parseTimePart (cs : List Char) : Option Int :=
  match takeDigits 2 cs with
  | some (h, r1) =>
    match expectCh ':' r1 with
    | some r2 =>
      match takeDigits 2 r2 with
      | some (mi, r3) =>
        if h ≤ 23 && mi ≤ 59 then
          match r3 with
          | ':' :: r4 =>
            match takeDigits 2 r4 with
            | some (s, r5) =>
              if s ≤ 59 then
                match r5 with
                | '.' :: r6 =>
                  match takeDigits 3 r6 with
                  | some (ms, r7) =>
                    (parseTzOffset r7).map fun off =>
                      ((h : Int) * 3600000 + (mi : Int) * 60000 + (s : Int) * 1000 + ms) - off
                  | none => none
                | _ =>
                  (parseTzOffset r5).map fun off =>
                    ((h : Int) * 3600000 + (mi : Int) * 60000 + (s : Int) * 1000) - off
              else none
            | none => none
          | _ =>
            (parseTzOffset r3).map fun off =>
              ((h : Int) * 3600000 + (mi : Int) * 60000) - off
        else none
      | none => none
    | none => none
  | none => none

/-- Model of `Date.parse` / `new Date(string)` on the ECMAScript Date
Time String Format; `none` models an invalid date (`NaN`). -/
def jsDateParse (s : String) : Option Int :=
  match takeDigits 4 s.toList with
  | some (y, r1) =>
    match r1 with
    | [] => some (daysFromCivil (y : Int) 1 1 * msPerDay)
    | '-' :: r2 =>
      match takeDigits 2 r2 with
      | some (mo, r3) =>
        if 1 ≤ mo && mo ≤ 12 then
          match r3 with
          | [] => some (daysFromCivil (y : Int) mo 1 * msPerDay)
          | '-' :: r4 =>
            match takeDigits 2 r4 with
            | some (d, r5) =>
              if 1 ≤ d && d ≤ daysInMonth (y : Int) mo then
                match r5 with
                | [] => some (daysFromCivil (y : Int) mo d * msPerDay)
                | 'T' :: r6 =>
                  (parseTimePart r6).map fun t => daysFromCivil (y : Int) mo d * msPerDay + t
                | _ => none
              else none
            | none => none
          | _ => none
        else none
      | none => none
    | _ => none
  | none => none

/-- Truncation toward zero of a modelled double (ECMAScript `ToInteger`). -/
def JsNum.trunc (q : JsNum) : Int :=
  Int.tdiv q.num (q.den : Int)

/-- Model of `new Date(value)` on an arbitrary value, followed by
`isNaN(date)`: `none` models an invalid date.  Numbers are clipped to the
ECMAScript time range; booleans and `null` coerce through `ToNumber`;
arrays and objects coerce through their string form. -/
def jsDateOf (v : JSValue) : Option Int :=
  match v with
  | .str s => jsDateParse s
  | .num q =>
    if q.num.natAbs ≤ 8640000000000000 * q.den then some q.trunc else none
  | .bool b => some (if b then 1 else 0)
  | .null => some 0
  | .undef => none
  | .arr xs => jsDateParse (jsToString (.arr xs))
  | .obj kvs => jsDateParse (jsToString (.obj kvs))

/-- `itemDate.toDateString() === conditionDate.toDateString()`: equality
of the local calendar day, with the model's host time zone fixed to UTC. -/
def sameCalendarDay (a b : Int) : Bool :=
  Int.fdiv a msPerDay == Int.fdiv b msPerDay

/-- `filterDate(value, condition)`. -/
def filterDate (v : JSValue) (c : String) : Bool :=
  let tokens := strSplitOnChar ' ' c
  let rangeResult : Option Bool :=
    if jsIncludes c " " && tokens.length == 2 then
      match tokens with
      | [startDate, endDate] =>
        match jsDateOf v, jsDateParse startDate, jsDateParse endDate with
        | some itemDate, some startTs, some endTs =>
          some (decide (startTs ≤ itemDate) && decide (itemDate ≤ endTs))
        | _, _, _ => none
      | _ => none
    else none
  match rangeResult with
  | some b => b
  | none =>
    match jsDateParse c with
    | some conditionDate =>
      match jsDateOf v with
      | some itemDate => sameCalendarDay itemDate conditionDate
      | none => filterString v c
    | none => filterString v c

/-! ### Field type analysis -/

/-- Token of a date-shape pattern: a fixed-length digit group or a literal
character. -/
inductive PatTok where
  | d : Nat → PatTok
  | c : Char → PatTok

/-- Does the character list start with the given pattern (the source's
date regular expressions are unanchored at the end)? -/
def matchPatPrefix : List PatTok → List Char → Bool
  | [], _ => true
  | .d n :: rest, cs =>
    match takeDigits n cs with
    | some (_, cs1) =>
      -- the regex digit groups are not maximal-munch here because every
      -- group is followed by a non-digit literal or the pattern end
      matchPatPrefix rest cs1
    | none => false
  | .c ch :: rest, cs =>
    match cs with
    | x :: t => x = ch && matchPatPrefix rest t
    | [] => false

/-- `isDateString(value)`: one of four date-like shapes, and
`Date.parse` succeeds. -/
def isDateString (s : String) : Bool :=
  let cs := s.toList
  let iso8601 := matchPatPrefix
    [.d 4, .c '-', .d 2, .c '-', .d 2, .c 'T', .d 2, .c ':', .d 2, .c ':', .d 2] cs
  let isoDate := matchPatPrefix [.d 4, .c '-', .d 2, .c '-', .d 2] cs
  let mdy := matchPatPrefix [.d 2, .c '/', .d 2, .c '/', .d 4] cs
  let dmy := matchPatPrefix [.d 2, .c '-', .d 2, .c '-', .d 4] cs
  (iso8601 || isoDate || mdy || dmy) && (jsDateParse s).isSome

/-- The inferred semantic type of a field.  `nullType` is the `'null'`
result for a field whose sampled values are all null/undefined. -/
inductive FieldType where
  | boolean : FieldType
  | number : FieldType
  | date : FieldType
  | string : FieldType
  | nullType : FieldType
deriving DecidableEq

/-- Category a single sample falls into; the checks below mirror the
source's first-match if/else chain. -/
inductive SampleClass where
  | boolean : SampleClass
  | number : SampleClass
  | date : SampleClass
  | string : SampleClass
deriving DecidableEq

/-- The boolean check of the sample classifier:
`strValue === 'true' || strValue === 'false' || typeof value === 'boolean'`. -/
def isBooleanSample (v : JSValue) : Bool :=
  let strValue := jsToLower (jsToString v)
  strValue == "true" || strValue == "false" || v.isBool

/-- The number check of the sample classifier:
`!isNaN(value) && !isNaN(parseFloat(value))`. -/
def isNumberSample (v : JSValue) : Bool :=
  (jsToNumber v).isSome && (jsParseFloat (jsToString v)).isSome

/-- The date check of the sample classifier:
`typeof value === 'string' && isDateString(value)`. -/
def isDateSample (v : JSValue) : Bool :=
  match v with
  | .str s => isDateString s
  | _ => false

/-- First-match classification of one sample value. -/
def classifySample (v : JSValue) : SampleClass :=
  if isBooleanSample v then .boolean
  else if isNumberSample v then .number
  else if isDateSample v then .date
  else .string

/-- A record is an open mapping from field names to values. -/
def JsRecord := List (String × JSValue)

/-- `item[field]`: reading an absent field yields `undefined`. -/
def getField (r : JsRecord) (field : String) : JSValue :=
  match r with
  | [] => .undef
  | (k, v) :: t => if k = field then v else getField t field

/-- Result of `analyzeFieldType`. -/
structure FieldProfile where
  type : FieldType
  details : String
  examples : List JSValue

/-- The sample set of `analyzeFieldType`: the first 100 non-null,
non-undefined values of the field, in record order. -/
def sampleList (items : List JsRecord) (field : String) : List JSValue :=
  ((items.map (fun item => getField item field)).filter
    (fun v => !v.isNullOrUndef)).take 100

/-- `analyzeFieldType(items, field)`.  The source compares each count
against `total * 0.7` in double arithmetic; for every `total ≤ 100` (the
sample cap) and every integer count, that comparison coincides with the
exact rational comparison `count * 10 ≥ total * 7` used here. -/
def analyzeFieldType (items : List JsRecord) (field : String) : FieldProfile :=
  let samples := sampleList items field
  if samples.isEmpty then
    ⟨.nullType, "All values are null/undefined", []⟩
  else
    let total := samples.length
    let booleanCount := samples.countP (fun v => classifySample v == .boolean)
    let numberCount := samples.countP (fun v => classifySample v == .number)
    let dateCount := samples.countP (fun v => classifySample v == .date)
    let stringCount := samples.countP (fun v => classifySample v == .string)
    let examples := samples.take 3
    if booleanCount * 10 ≥ total * 7 then
      ⟨.boolean, toString booleanCount ++ "/" ++ toString total ++ " boolean values", examples⟩
    else if numberCount * 10 ≥ total * 7 then
      ⟨.number, toString numberCount ++ "/" ++ toString total ++ " numeric values", examples⟩
    else if dateCount * 10 ≥ total * 7 then
      ⟨.date, toString dateCount ++ "/" ++ toString total ++ " date values", examples⟩
    else
      ⟨.string, toString stringCount ++ "/" ++ toString total ++ " string values", examples⟩

/-! ### The per-record test and `filterItems` -/

/-- The per-record predicate applied inside `filterItems`: null/undefined
values match only the conditions `"null"`/`"undefined"` (case-insensitive);
otherwise the inferred type selects the comparator, with the `'string'`
case and the `default` switch branch (reached e.g. for type `'null'`)
both using the substring filter. -/
def recordTest (fieldType : FieldType) (v : JSValue) (c : String) : Bool :=
  if v.isNullOrUndef then
    jsToLower c == "null" || jsToLower c == "undefined"
  else
    match fieldType with
    | .boolean => filterBoolean v c
    | .number => filterNumber v c
    | .date => filterDate v c
    | .string => filterString v c
    | .nullType => filterString v c

/-- `fieldAnalysis?.type || 'string'`: an absent analysis defaults the
type to `'string'` (a present analysis always has a non-empty, hence
truthy, type string). -/
def profileType (fieldAnalysis : Option FieldProfile) : FieldType :=
  match fieldAnalysis with
  | some p => p.type
  | none => .string

/-- `filterItems(items, field, condition, fieldAnalysis)`. -/
def filterItems (items : List JsRecord) (field condition : String)
    (fieldAnalysis : Option FieldProfile) : List JsRecord :=
  items.filter (fun item =>
    recordTest (profileType fieldAnalysis) (getField item field) condition)

/-! ### CSV generation (`generateCSV` / `generateMinedCSV` row logic) -/

/-- `value.replace(/"/g, '""')` at the character level. -/
def csvEscapeChars : List Char → List Char
  | [] => []
  | c :: t => if c = '"' then '"' :: '"' :: csvEscapeChars t else c :: csvEscapeChars t

/-- The quoting trigger:
`value.includes(',') || value.includes('"') || value.includes('\n')`. -/
def needsQuote (s : String) : Bool :=
  s.toList.any (fun c => c = ',' || c = '"' || c = '\n')

/-- Wrap in double quotes, doubling internal double quotes, iff the value
contains a comma, a double quote or a newline. -/
def csvQuoteValue (s : String) : String :=
  if needsQuote s then String.mk ('"' :: (csvEscapeChars s.toList ++ ['"'])) else s

/-- JSON string escaping for `JSON.stringify` (common escapes). -/
def jsonEscapeChars : List Char → List Char
  | [] => []
  | c :: t =>
    (if c = '"' then ['\\', '"']
     else if c = '\\' then ['\\', '\\']
     else if c = '\n' then ['\\', 'n']
     else if c = '\r' then ['\\', 'r']
     else if c = '\t' then ['\\', 't']
     else [c]) ++ jsonEscapeChars t

mutual

/-- Model of `JSON.stringify` on the modelled values.  A top-level
`undefined` cannot reach this function from the CSV path; inside arrays
`undefined` serialises as `null`, and object entries with `undefined`
values are dropped. -/
def jsonStringify : JSValue → String
  | .null => "null"
  | .undef => "null"
  | .bool b => if b then "true" else "false"
  | .num q => jsNumToString q
  | .str s => "\"" ++ String.mk (jsonEscapeChars s.toList) ++ "\""
  | .arr xs => "[" ++ strIntercalate "," (jsonArrParts xs) ++ "]"
  | .obj kvs => "\x7b" ++ strIntercalate "," (jsonObjParts kvs) ++ "\x7d"

def jsonArrParts : List JSValue → List String
  | [] => []
  | v :: vs =>
    (match v with
     | .undef => "null"
     | w => jsonStringify w) :: jsonArrParts vs

def jsonObjParts : List (String × JSValue) → List String
  | [] => []
  | (k, v) :: t =>
    match v with
    | .undef => jsonObjParts t
    | w => ("\"" ++ String.mk (jsonEscapeChars k.toList) ++ "\":" ++ jsonStringify w)
        :: jsonObjParts t

end

/-- One CSV cell: null/undefined render empty; objects and arrays are
JSON-serialised; the resulting string is quoted when needed. -/
def csvCell (v : JSValue) : String :=
  match v with
  | .null => ""
  | .undef => ""
  | .arr xs => csvQuoteValue (jsonStringify (.arr xs))
  | .obj kvs => csvQuoteValue (jsonStringify (.obj kvs))
  | w => csvQuoteValue (jsToString w)

/-- Keys of a record in insertion order. -/
def recordKeys (r : JsRecord) : List String :=
  r.map Prod.fst

/-- Union of all keys across all items, in first-occurrence order (the
`Set` accumulation of the source). -/
def unionKeys (items : List JsRecord) : List String :=
  items.foldl
    (fun acc r =>
      (recordKeys r).foldl (fun acc2 k => if acc2.contains k then acc2 else acc2 ++ [k]) acc)
    []

/-- Insertion into a list sorted by the boolean order `le`. -/
def insertLe (le : β → β → Bool) (x : β) : List β → List β
  | [] => [x]
  | y :: t => if le x y then x :: y :: t else y :: insertLe le x t

/-- Insertion sort by the boolean order `le` (extensionally the
`Array.prototype.sort` of the source on the comparators used here). -/
def sortLe (le : β → β → Bool) : List β → List β
  | [] => []
  | x :: t => insertLe le x (sortLe le t)

/-- Lexicographic order on character lists by code point (JavaScript's
default string sort on the BMP strings the program handles). -/
def charListLe : List Char → List Char → Bool
  | [], _ => true
  | _ :: _, [] => false
  | a :: t, b :: u => if a = b then charListLe t u else decide (a.toNat < b.toNat)

/-- Default JavaScript string comparison. -/
def strLe (a b : String) : Bool :=
  charListLe a.toList b.toList

/-- Full CSV text produced by the exporter: header row of sorted field
names, then one row per item. -/
def generateCSVContent (items : List JsRecord) : String :=
  let fields := sortLe strLe (unionKeys items)
  let header := strIntercalate "," fields ++ "\n"
  items.foldl
    (fun acc item =>
      acc ++ strIntercalate "," (fields.map (fun f => csvCell (getField item f))) ++ "\n")
    header

/-- Undo CSV quote doubling inside a quoted cell. -/
def csvUndouble : List Char → List Char
  | [] => []
  | [c] => [c]
  | c :: d :: t =>
    if c = '"' && d = '"' then '"' :: csvUndouble t
    else c :: csvUndouble (d :: t)

/-- Modelled from the spec: the reading of one cell by a standard
RFC 4180 CSV reader (the spec's "standard CSV reader" used to state the
round-trip property).  A cell starting with a double quote is read as a
quoted cell whose doubled quotes are collapsed; an unquoted cell must be
free of separators, quotes and line breaks. -/
def rfcReadCellList : List Char → Option (List Char)
  | c :: rest =>
    if c = '"' then
      match rest.reverse with
      | d :: innerRev =>
        if d = '"' then some (csvUndouble innerRev.reverse) else none
      | [] => none
    else if (c :: rest).any (fun ch => ch = ',' || ch = '"' || ch = '\n') then none
    else some (c :: rest)
  | [] => some []

/-- String-level wrapper of `rfcReadCellList`. -/
def rfcReadCell (cell : String) : Option String :=
  (rfcReadCellList cell.toList).map String.mk

/-! ### Consolidation of per-page response files -/

/-- Numeric page suffix captured by `/_(\d+)\.json$/` and `parseInt`:
the maximal trailing digit run of the stem, which must be non-empty and
preceded by an underscore. -/
def pageSuffix (name : String) : Option Nat :=
  if strEndsWith name ".json" then
    let stemRev := name.toList.reverse.drop 5
    let ds := stemRev.takeWhile Char.isDigit
    let rest := stemRev.dropWhile Char.isDigit
    if ds.isEmpty then none
    else
      match rest with
      | '_' :: _ => some (digitsToNat ds.reverse)
      | _ => none
  else none

/-- Outcome of `consolidateResults`.  `sortError` models the `TypeError`
thrown when the sort comparator dereferences a failed regex match (only
reachable when at least two files are compared).  The items are generic:
the source treats page items as opaque payloads. -/
inductive ConsolidateOutcome (α : Type) where
  | noFiles : ConsolidateOutcome α
  | sortError : ConsolidateOutcome α
  | ok : List α → List String → ConsolidateOutcome α
deriving DecidableEq

/-- Files of this execution:
`file.startsWith(baseName) && file.endsWith('.json')`. -/
def matchingFiles (base : String) (dir : List (String × List α)) : List (String × List α) :=
  dir.filter (fun f => strStartsWith f.1 base && strEndsWith f.1 ".json")

/-- Sort key of a page file (defined when the suffix regex matches). -/
def pageKey (f : String × List α) : Nat :=
  (pageSuffix f.1).getD 0

/-- `consolidateResults(baseName, ...)` restricted to its observable
file-system effect: the concatenated items of the matching page files in
ascending numeric-suffix order, and the list of deleted source files. -/
def consolidateResults (base : String) (dir : List (String × List α)) : ConsolidateOutcome α :=
  let executionFiles := matchingFiles base dir
  if executionFiles.isEmpty then .noFiles
  else if executionFiles.length = 1
      || executionFiles.all (fun f => (pageSuffix f.1).isSome) then
    let sorted := sortLe (fun a b => Nat.ble (pageKey a) (pageKey b)) executionFiles
    .ok (sorted.map Prod.snd).flatten (sorted.map Prod.fst)
  else .sortError

/-! ### Bulk delete (`deleteProducts`) -/

/-- The report accumulated during a bulk delete run (`errors` entries are
identified by product id here). -/
structure DeleteReport where
  total : Nat
  deleted : Nat
  failed : Nat
  skipped : Nat
  invalidIds : List String
  errorIds : List String
deriving DecidableEq

/-- Run state: the report plus the ids actually submitted to the remote
DELETE endpoint, in submission order. -/
structure DeleteRunState where
  report : DeleteReport
  submitted : List String
deriving DecidableEq

/-- One `deleteProduct(productId, index)` call.  `remote id = true`
models a successful DELETE, `false` a failed one (including 404). -/
def deleteStep (remote : String → Bool) (st : DeleteRunState) (productId : String) :
    DeleteRunState :=
  if !strStartsWith productId "PA" then
    { st with report := { st.report with
        skipped := st.report.skipped + 1,
        invalidIds := st.report.invalidIds ++ [productId] } }
  else
    let st1 := { st with submitted := st.submitted ++ [productId] }
    if remote productId then
      { st1 with report := { st1.report with deleted := st1.report.deleted + 1 } }
    else
      { st1 with report := { st1.report with
          failed := st1.report.failed + 1,
          errorIds := st1.report.errorIds ++ [productId] } }

/-- `productIds.slice(i, i + concurrency)` batching.  Defined for the
validated concurrency range `1..10` of the CLI; the formulation below is
structural and treats a (rejected) concurrency of 0 like 1. -/
def chunkGo (n : Nat) : List α → List α → Nat → List (List α)
  | [], acc, _ => if acc.isEmpty then [] else [acc]
  | x :: t, acc, r =>
    if r ≤ 1 then (acc ++ [x]) :: chunkGo n t [] n
    else chunkGo n t (acc ++ [x]) (r - 1)

def chunkList (n : Nat) (l : List α) : List (List α) :=
  chunkGo n l [] n

/-- `strTrim`: JavaScript `String.prototype.trim` (ASCII fragment). -/
def strTrim (s : String) : String :=
  String.mk ((s.toList.dropWhile isJsWhitespace).reverse.dropWhile isJsWhitespace |>.reverse)

/-- Product id list read from the CSV file: one id per line, trimmed,
blank lines dropped. -/
def parseIdLines (content : String) : List String :=
  ((strSplitOnChar '\n' content).map strTrim).filter (fun s => !(s.toList.isEmpty))

/-- The whole bulk delete run over an id list.  Batches of `concurrency`
ids are issued with `Promise.all`; each id is processed exactly once and
the per-id report updates commute, so the aggregate state equals the
sequential left fold executed here (the `invalidIds` pushes happen
synchronously before the first await of each call, preserving order). -/
def deleteProductsRun (remote : String → Bool) (concurrency : Nat)
    (productIds : List String) : DeleteRunState :=
  (chunkList concurrency productIds).foldl
    (fun st batch => batch.foldl (deleteStep remote) st)
    ⟨⟨productIds.length, 0, 0, 0, [], []⟩, []⟩

/-! ### Data mining (`mineData`) -/

/-- The persisted mining result (the fields relevant to the claims). -/
structure MiningResult where
  fieldName : String
  detectedType : FieldType
  originalCount : Nat
  filteredCount : Nat
  items : List JsRecord

/-- A file written into the result directory by `mineData`. -/
inductive MineWrite where
  | jsonResult : MiningResult → MineWrite
  | csvResult : String → MineWrite

/-- Non-error terminations of `mineData`. -/
inductive MineOutcome where
  | noItems : MineOutcome
  | noMatch : MineOutcome
  | success : MineOutcome
deriving DecidableEq

/-- `item.hasOwnProperty(field)`. -/
def hasOwnField (r : JsRecord) (field : String) : Bool :=
  (recordKeys r).contains field

/-- `mineData(inputFile, field, condition)` restricted to its observable
effect: the outcome and the list of files written to the result
directory.  `none` input models a missing input file. -/
def mineData (input : Option (List JsRecord)) (field condition : String) :
    Except String (MineOutcome × List MineWrite) :=
  match input with
  | none => .error "Input file not found"
  | some items =>
    if items.isEmpty then .ok (.noItems, [])
    else if !items.any (fun item => hasOwnField item field) then
      .error "Field not found in any items"
    else
      let fieldAnalysis := analyzeFieldType items field
      let filteredItems := filterItems items field condition (some fieldAnalysis)
      if filteredItems.isEmpty then .ok (.noMatch, [])
      else
        let result : MiningResult :=
          ⟨field, fieldAnalysis.type, items.length, filteredItems.length, filteredItems⟩
        .ok (.success, [.jsonResult result, .csvResult (generateCSVContent filteredItems)])

/-! ### Concrete inputs used in the final theorems -/

/-- Ten records whose field `f` has exactly 7 boolean-like values (70%)
and 3 plain strings. -/
def exactly70Boolean : List JsRecord :=
  [[("f", .bool true)], [("f", .str "TRUE")], [("f", .bool false)], [("f", .str "false")],
   [("f", .bool true)], [("f", .bool true)], [("f", .bool false)],
   [("f", .str "x")], [("f", .str "y")], [("f", .str "z")]]

/-- Four records with one sample in each category (no category reaches
70%). -/
def mixedSamples : List JsRecord :=
  [[("f", .bool true)], [("f", .num 1)], [("f", .str "2021-06-15")], [("f", .str "x")]]

/-- A record set whose field `f` is always null. -/
def allNullSamples : List JsRecord :=
  [[("f", JSValue.null)], [("f", JSValue.undef)]]

/-! ### Helper lemmas -/

theorem listContainsSub_nil (hay : List Char) : listContainsSub hay [] = true := by
  cases hay <;> simp [listContainsSub, listIsPrefix]

theorem jsIncludes_empty (s : String) : jsIncludes s "" = true := by
  unfold jsIncludes
  have h : ("" : String).toList = [] := rfl
  rw [h]
  exact listContainsSub_nil _

theorem filterString_empty (v : JSValue) : filterString v "" = true := by
  unfold filterString
  have h : jsToLower "" = "" := rfl
  rw [h]
  exact jsIncludes_empty _

theorem filterBoolean_empty (v : JSValue) : filterBoolean v "" = true := by
  unfold filterBoolean
  have h : jsToLower "" = "" := rfl
  rw [h]
  simpa using filterString_empty v

theorem filterNumber_empty (v : JSValue) : filterNumber v "" = true := by
  unfold filterNumber
  have h : numCondParse "" = none := by decide
  rw [h]
  exact filterString_empty v

theorem filterDate_empty (v : JSValue) : filterDate v "" = true := by
  unfold filterDate
  have h1 : jsIncludes "" " " = false := by decide
  have h2 : jsDateParse "" = none := by decide
  rw [h1, h2]
  simpa using filterString_empty v

/-- C10: for every non-null, non-undefined value and every inferred field
type (including the `'null'` type and hence, through
`fieldAnalysis?.type || 'string'`, an absent profile), the empty
condition matches: every typed grammar fails on `""` and the substring
fallback always succeeds, since every string contains the empty string;
for a null/undefined value the empty condition matches nothing. -/
theorem claim_C10_empty_condition (ft : FieldType) (v : JSValue) :
    recordTest ft v "" = !v.isNullOrUndef := by
  unfold recordTest
  cases h : v.isNullOrUndef with
  | true => rw [if_pos rfl]; decide
  | false =>
    simp only [h, Bool.false_eq_true, if_false, Bool.not_false]
    cases ft
    · exact filterBoolean_empty v
    · exact filterNumber_empty v
    · exact filterDate_empty v
    · exact filterString_empty v
    · exact filterString_empty v

/-- C3: the per-record test applied by `filterItems` is a total boolean
function of the inferred field type, the raw value and the condition
string: `filterItems` is exactly a `List.filter` of that predicate, and
on every input (every field type, every modelled JSON value, and every
condition string — empty, unicode or regex-metacharacter text alike) the
predicate evaluates to one of the two booleans; the embedding is a total
function, mirroring that every JavaScript primitive reached by the
evaluator (literal-regex match, parseFloat, Date construction, includes,
toLowerCase) is non-throwing. -/
theorem claim_C3_total_evaluator :
    (∀ (items : List JsRecord) (field condition : String)
        (fieldAnalysis : Option FieldProfile),
      filterItems items field condition fieldAnalysis =
        items.filter (fun item =>
          recordTest (profileType fieldAnalysis) (getField item field) condition)) ∧
    (∀ (ft : FieldType) (v : JSValue) (c : String),
      recordTest ft v c = true ∨ recordTest ft v c = false) := by
  constructor
  · intro items field condition fieldAnalysis
    rfl
  · intro ft v c
    cases h : recordTest ft v c
    · exact Or.inr rfl
    · exact Or.inl rfl

/-- C5: a record whose value for the filtered field is null or undefined
is kept by `filterItems` iff the condition case-insensitively equals
`"null"` or `"undefined"`, for every field type; the type-specific
comparators are never consulted (the result does not depend on the field
type). -/
theorem claim_C5_null_handling :
    (∀ (ft : FieldType) (v : JSValue) (c : String),
      v.isNullOrUndef = true →
      recordTest ft v c = (jsToLower c == "null" || jsToLower c == "undefined")) ∧
    (∀ (ft1 ft2 : FieldType) (v : JSValue) (c : String),
      v.isNullOrUndef = true → recordTest ft1 v c = recordTest ft2 v c) ∧
    (∀ (items : List JsRecord) (field c : String) (fa : Option FieldProfile)
        (item : JsRecord),
      (getField item field).isNullOrUndef = true →
      (item ∈ filterItems items field c fa ↔
        item ∈ items ∧ (jsToLower c == "null" || jsToLower c == "undefined") = true)) := by
  have key : ∀ (ft : FieldType) (v : JSValue) (c : String),
      v.isNullOrUndef = true →
      recordTest ft v c = (jsToLower c == "null" || jsToLower c == "undefined") := by
    intro ft v c h
    unfold recordTest
    rw [h]
    simp
  refine ⟨key, ?_, ?_⟩
  · intro ft1 ft2 v c h
    rw [key ft1 v c h, key ft2 v c h]
  · intro items field c fa item h
    unfold filterItems
    rw [List.mem_filter, key (profileType fa) (getField item field) c h]

/-- C5 witness at concrete inputs. -/
theorem claim_C5_null_handling_witness :
    recordTest .number JSValue.null "NULL" =
      (jsToLower "NULL" == "null" || jsToLower "NULL" == "undefined") ∧
    recordTest .date JSValue.undef "x" = recordTest .boolean JSValue.undef "x" ∧
    ([("a", JSValue.null)] ∈ filterItems [[("a", JSValue.null)]] "a" "undefined" none ↔
      [("a", JSValue.null)] ∈ [[("a", JSValue.null)]] ∧
        (jsToLower "undefined" == "null" || jsToLower "undefined" == "undefined") = true) :=
  ⟨claim_C5_null_handling.1 .number JSValue.null "NULL" (by decide),
   claim_C5_null_handling.2.1 .date .boolean JSValue.undef "x" (by decide),
   claim_C5_null_handling.2.2 [[("a", JSValue.null)]] "a" "undefined" none
     [("a", JSValue.null)] (by decide)⟩

/-- C1: counterexample — the claim asserts that
`test("number", "50abc", ">10")` falls back to a substring match and
returns `false`; on the code, `parseFloat("50abc")` is `50`, the numeric
comparison `50 > 10` applies, and the result is `true` (the substring
match would indeed have been `false`). -/
theorem claim_C1_counterexample :
    filterNumber (.str "50abc") ">10" = true ∧
    filterString (.str "50abc") ">10" = false := by
  constructor <;> decide

/-- C1 (amended): `filterNumber` parses the condition with the pattern
`^([><=]+)?\s*(-?\d+\.?\d*)$` — the operator group is any non-empty run
of `>`/`<`/`=` characters, `>`/`<`/`>=`/`<=` are applied as relational
operators and every other run (including the defaulted `=`) compares for
equality — and parses the raw value with `parseFloat`, which accepts any
string with a numeric prefix; when both parses succeed the operator is
applied (so `test("number", "50abc", ">10")` is `50 > 10 = true`), and
only otherwise does the test fall back to case-insensitive substring
match. -/
theorem claim_C1_number_conditions :
    (∀ (v : JSValue) (c : String) (op : String) (q x : JsNum),
      numCondParse c = some (op, q) →
      jsParseFloat (jsToString v) = some x →
      filterNumber v c = applyNumOp op x q) ∧
    (∀ (v : JSValue) (c : String),
      numCondParse c = none → filterNumber v c = filterString v c) ∧
    (∀ (v : JSValue) (c : String) (op : String) (q : JsNum),
      numCondParse c = some (op, q) →
      jsParseFloat (jsToString v) = none →
      filterNumber v c = filterString v c) ∧
    filterNumber (.num 50) ">=50" = true ∧
    filterNumber (.num ⟨49999, 1000⟩) ">=50" = false ∧
    filterNumber (.num (-5)) "<0" = true ∧
    filterNumber (.num 5) "5" = true ∧
    filterNumber (.str "50abc") ">10" = true := by
  refine ⟨?_, ?_, ?_, by decide, by decide, by decide, by decide, by decide⟩
  · intro v c op q x h1 h2
    unfold filterNumber
    rw [h1, h2]
  · intro v c h
    unfold filterNumber
    rw [h]
  · intro v c op q h1 h2
    unfold filterNumber
    rw [h1, h2]

/-- C1 witness: the general clauses of the amended claim instantiated at
concrete inputs. -/
theorem claim_C1_number_conditions_witness :
    filterNumber (.num 7) ">5" = applyNumOp ">" 7 5 ∧
    filterNumber (.str "abc") "=" = filterString (.str "abc") "=" ∧
    filterNumber (.str "abc") "5" = filterString (.str "abc") "5" :=
  ⟨claim_C1_number_conditions.1 (.num 7) ">5" ">" 5 7 (by decide) (by decide),
   claim_C1_number_conditions.2.1 (.str "abc") "=" (by decide),
   claim_C1_number_conditions.2.2.1 (.str "abc") "5" "=" 5 (by decide) (by decide)⟩

theorem classifySample_eq_boolean (v : JSValue) :
    (classifySample v == SampleClass.boolean) = isBooleanSample v := by
  unfold classifySample
  cases h : isBooleanSample v
  · simp only [h, Bool.false_eq_true, if_false]
    split_ifs <;> rfl
  · simp [h]

/-- C2: counterexample — with a sample set of 10 values of which exactly
7 (70%) are syntactically valid booleans, no category strictly exceeds
70% of the samples, so the claimed `>70%` threshold would leave the
profile at its `'string'` default; the code's threshold check is `>=`,
and the analyzer returns `'boolean'`. -/
theorem claim_C2_counterexample :
    (sampleList exactly70Boolean "f").length = 10 ∧
    (sampleList exactly70Boolean "f").countP (fun v => isBooleanSample v) = 7 ∧
    ¬ ((sampleList exactly70Boolean "f").countP (fun v => isBooleanSample v) * 10 >
        (sampleList exactly70Boolean "f").length * 7) ∧
    (analyzeFieldType exactly70Boolean "f").type = FieldType.boolean ∧
    (analyzeFieldType exactly70Boolean "f").type ≠ FieldType.string := by
  refine ⟨by decide, by decide, by decide, by decide, by decide⟩

/-- C2 (amended): `analyzeFieldType` samples at most the first 100
non-null, non-undefined values of the field in record order and chooses
the type by a `≥ 70%`-of-samples threshold (reaching the threshold
counts), checked in priority order boolean, number, date; for any
non-empty sample set where at least 70% of the samples are syntactically
valid booleans it returns `'boolean'`; if no category reaches 70% the
profile defaults to `'string'`; with zero samples it returns type
`'null'`. -/
theorem claim_C2_type_threshold :
    (∀ (items : List JsRecord) (field : String),
      (sampleList items field).isEmpty = false →
      (sampleList items field).countP (fun v => isBooleanSample v) * 10 ≥
        (sampleList items field).length * 7 →
      (analyzeFieldType items field).type = FieldType.boolean) ∧
    (∀ (items : List JsRecord) (field : String),
      (sampleList items field).isEmpty = false →
      (sampleList items field).countP (fun v => classifySample v == SampleClass.boolean) * 10 <
        (sampleList items field).length * 7 →
      (sampleList items field).countP (fun v => classifySample v == SampleClass.number) * 10 <
        (sampleList items field).length * 7 →
      (sampleList items field).countP (fun v => classifySample v == SampleClass.date) * 10 <
        (sampleList items field).length * 7 →
      (analyzeFieldType items field).type = FieldType.string) ∧
    (∀ (items : List JsRecord) (field : String),
      (sampleList items field).isEmpty = true →
      (analyzeFieldType items field).type = FieldType.nullType) := by
  have hcount : ∀ (items : List JsRecord) (field : String),
      (sampleList items field).countP (fun v => classifySample v == SampleClass.boolean) =
        (sampleList items field).countP (fun v => isBooleanSample v) := by
    intro items field
    exact List.countP_congr (fun a _ => by rw [classifySample_eq_boolean a])
  refine ⟨?_, ?_, ?_⟩
  · intro items field hne hthr
    simp only [analyzeFieldType, hne, Bool.false_eq_true, if_false]
    rw [hcount items field, if_pos hthr]
  · intro items field hne hb hn hd
    simp only [analyzeFieldType, hne, Bool.false_eq_true, if_false]
    rw [if_neg (by omega), if_neg (by omega), if_neg (by omega)]
  · intro items field hne
    simp only [analyzeFieldType, hne, if_true]

/-- C2 witness: the three clauses of the amended claim instantiated at
concrete record sets. -/
theorem claim_C2_type_threshold_witness :
    (analyzeFieldType exactly70Boolean "f").type = FieldType.boolean ∧
    (analyzeFieldType mixedSamples "f").type = FieldType.string ∧
    (analyzeFieldType allNullSamples "f").type = FieldType.nullType :=
  ⟨claim_C2_type_threshold.1 exactly70Boolean "f" (by decide) (by decide),
   claim_C2_type_threshold.2.1 mixedSamples "f" (by decide) (by decide) (by decide) (by decide),
   claim_C2_type_threshold.2.2 allNullSamples "f" (by decide)⟩

/-- C4: for inferred type `'date'`, a two-token condition is an inclusive
range — when the value and both bounds parse as timestamps the record
matches iff `start ≤ value ≤ end`, boundary dates included; a single-token
condition that parses matches iff the value's calendar day (ignoring
time-of-day) equals the condition's calendar day, e.g.
`test("date", "2021-06-15T23:59:00Z", "2021-06-15") = true`; and whenever
date parsing fails at any point (the value, a range bound together with
the whole condition, or the whole condition) the test falls back to the
case-insensitive substring match. -/
theorem claim_C4_date_conditions :
    (∀ (v : JSValue) (c sd ed : String) (ts te tv : Int),
      jsIncludes c " " = true →
      strSplitOnChar ' ' c = [sd, ed] →
      jsDateParse sd = some ts →
      jsDateParse ed = some te →
      jsDateOf v = some tv →
      filterDate v c = (decide (ts ≤ tv) && decide (tv ≤ te))) ∧
    (∀ (v : JSValue) (c : String) (tc tv : Int),
      jsIncludes c " " = false →
      jsDateParse c = some tc →
      jsDateOf v = some tv →
      filterDate v c = sameCalendarDay tv tc) ∧
    (∀ (v : JSValue) (c : String),
      jsDateOf v = none → filterDate v c = filterString v c) ∧
    (∀ (v : JSValue) (c sd ed : String),
      strSplitOnChar ' ' c = [sd, ed] →
      (jsDateParse sd = none ∨ jsDateParse ed = none) →
      jsDateParse c = none →
      filterDate v c = filterString v c) ∧
    filterDate (.str "2021-06-15") "2021-01-01 2021-12-31" = true ∧
    filterDate (.str "2021-01-01") "2021-01-01 2021-12-31" = true ∧
    filterDate (.str "2021-12-31") "2021-01-01 2021-12-31" = true ∧
    filterDate (.str "2020-12-31") "2021-01-01 2021-12-31" = false ∧
    filterDate (.str "2021-06-15T23:59:00Z") "2021-06-15" = true := by
  refine ⟨?_, ?_, ?_, ?_, by decide, by decide, by decide, by decide, by decide⟩
  · intro v c sd ed ts te tv hinc hsplit hs he hv
    unfold filterDate
    rw [hinc, hsplit]
    simp only [List.length_cons, List.length_nil, Bool.true_and]
    rw [hv, hs, he]
    rfl
  · intro v c tc tv hinc hc hv
    unfold filterDate
    rw [hinc, hc, hv]
    simp
  · intro v c hv
    unfold filterDate
    rw [hv]
    cases hinc : jsIncludes c " " <;>
      cases hsp : strSplitOnChar ' ' c with
      | nil => simp only [List.length_nil, Bool.false_and, Bool.and_false]
               cases hc : jsDateParse c <;> rfl
      | cons a t =>
        cases t with
        | nil =>
          simp only [List.length_cons, List.length_nil, Bool.false_and, Bool.and_false]
          cases hc : jsDateParse c <;> rfl
        | cons b u =>
          cases u with
          | nil =>
            simp only [List.length_cons, List.length_nil, Bool.false_and, Bool.true_and]
            cases hc : jsDateParse c <;> rfl
          | cons d w =>
            simp only [List.length_cons, Bool.false_and, Bool.and_false]
            cases hc : jsDateParse c <;> rfl
  · intro v c sd ed hsplit hnone hc
    unfold filterDate
    rw [hsplit, hc]
    cases hinc : jsIncludes c " "
    · simp
    · simp only [List.length_cons, List.length_nil, Bool.true_and]
      rcases hnone with h | h
      · rw [h]
        cases hov : jsDateOf v <;> rfl
      · rw [h]
        cases hov : jsDateOf v <;> cases hsd : jsDateParse sd <;> rfl

/-- C4 witness: the general clauses instantiated at concrete inputs. -/
theorem claim_C4_date_conditions_witness :
    filterDate (.str "2021-06-15") "2021-01-01 2021-12-31" =
      (decide ((1609459200000 : Int) ≤ 1623715200000) &&
        decide ((1623715200000 : Int) ≤ 1640908800000)) ∧
    filterDate (.str "2021-06-15T23:59:00Z") "2021-06-15" =
      sameCalendarDay 1623801540000 1623715200000 ∧
    filterDate (.str "not a date") "2021-06-15" =
      filterString (.str "not a date") "2021-06-15" ∧
    filterDate (.str "2021-06-15") "a b" = filterString (.str "2021-06-15") "a b" :=
  ⟨claim_C4_date_conditions.1 (.str "2021-06-15") "2021-01-01 2021-12-31"
      "2021-01-01" "2021-12-31" 1609459200000 1640908800000 1623715200000
      (by decide) (by decide) (by decide) (by decide) (by decide),
   claim_C4_date_conditions.2.1 (.str "2021-06-15T23:59:00Z") "2021-06-15"
      1623715200000 1623801540000 (by decide) (by decide) (by decide),
   claim_C4_date_conditions.2.2.1 (.str "not a date") "2021-06-15" (by decide),
   claim_C4_date_conditions.2.2.2.1 (.str "2021-06-15") "a b" "a" "b"
      (by decide) (Or.inl (by decide)) (by decide)⟩

theorem csvUndouble_escape : ∀ l : List Char, csvUndouble (csvEscapeChars l) = l := by
  intro l
  induction l with
  | nil => rfl
  | cons c t ih =>
    by_cases hc : c = '"'
    · subst hc
      simp only [csvEscapeChars, if_pos rfl]
      simpa [csvUndouble] using ih
    · simp only [csvEscapeChars, if_neg hc]
      cases he : csvEscapeChars t with
      | nil =>
        rw [he] at ih
        have ht : t = [] := by simpa [csvUndouble] using ih.symm
        subst ht
        simp [csvUndouble]
      | cons d u =>
        rw [he] at ih
        simpa [csvUndouble, hc] using ih

/-- C6: in the produced CSV, a cell is quote-wrapped (with internal
double quotes doubled) iff the stringified value contains a comma, a
double quote or a newline; consequently a string field containing a
comma, a quote and a newline survives an export followed by a standard
RFC 4180 read of the cell unchanged. -/
theorem claim_C6_csv_round_trip :
    (∀ s : String, needsQuote s = false → csvCell (.str s) = s) ∧
    (∀ s : String, needsQuote s = true →
      csvCell (.str s) = String.mk ('"' :: (csvEscapeChars s.toList ++ ['"']))) ∧
    (∀ s : String, ',' ∈ s.toList → '"' ∈ s.toList → '\n' ∈ s.toList →
      rfcReadCell (csvCell (.str s)) = some s) := by
  have ha2 : ∀ s : String, needsQuote s = true →
      csvCell (.str s) = String.mk ('"' :: (csvEscapeChars s.toList ++ ['"'])) := by
    intro s h
    show csvQuoteValue s = _
    unfold csvQuoteValue
    rw [h]
    rfl
  refine ⟨?_, ha2, ?_⟩
  · intro s h
    show csvQuoteValue s = s
    unfold csvQuoteValue
    rw [h]
    rfl
  · intro s hcomma hquote hnl
    have hq : needsQuote s = true := by
      unfold needsQuote
      rw [List.any_eq_true]
      exact ⟨'"', hquote, by decide⟩
    rw [ha2 s hq]
    unfold rfcReadCell
    rw [show (String.mk ('"' :: (csvEscapeChars s.toList ++ ['"']))).toList =
        '"' :: (csvEscapeChars s.toList ++ ['"']) from rfl]
    simp only [rfcReadCellList, if_pos rfl]
    rw [show (csvEscapeChars s.toList ++ ['"']).reverse =
        '"' :: (csvEscapeChars s.toList).reverse by
      rw [List.reverse_append]; rfl]
    simp only [if_pos rfl, List.reverse_reverse, csvUndouble_escape, Option.map_some]
    rfl

/-- C6 witness: the clauses instantiated at concrete strings. -/
theorem claim_C6_csv_round_trip_witness :
    csvCell (.str "ab") = "ab" ∧
    csvCell (.str "a,b") = String.mk ('"' :: (csvEscapeChars "a,b".toList ++ ['"'])) ∧
    rfcReadCell (csvCell (.str "a,\"x\"\nb")) = some "a,\"x\"\nb" :=
  ⟨claim_C6_csv_round_trip.1 "ab" (by decide),
   claim_C6_csv_round_trip.2.1 "a,b" (by decide),
   claim_C6_csv_round_trip.2.2 "a,\"x\"\nb" (by decide) (by decide) (by decide)⟩

/-- C9: when filtering yields zero matching items, `mineData` reports the
empty result and returns before writing anything: no JSON mining result
and no CSV file are created. -/
theorem claim_C9_no_output_on_zero_matches (items : List JsRecord) (field condition : String)
    (h1 : items.isEmpty = false)
    (h2 : items.any (fun item => hasOwnField item field) = true)
    (h3 : (filterItems items field condition (some (analyzeFieldType items field))).isEmpty
      = true) :
    mineData (some items) field condition = .ok (.noMatch, []) := by
  simp only [mineData, h1, h2, h3, Bool.not_true, Bool.false_eq_true, if_false, if_true]

/-- C9 witness at a concrete record set with no matches. -/
theorem claim_C9_no_output_on_zero_matches_witness :
    mineData (some [[("a", JSValue.str "x")]]) "a" "zz" = .ok (.noMatch, []) :=
  claim_C9_no_output_on_zero_matches [[("a", JSValue.str "x")]] "a" "zz"
    (by decide) (by decide) (by decide)

theorem chunkGo_foldl {α σ : Type} (f : σ → α → σ) (n : Nat) :
    ∀ (l acc : List α) (r : Nat) (st : σ),
      (chunkGo n l acc r).foldl (fun s b => b.foldl f s) st = (acc ++ l).foldl f st := by
  intro l
  induction l with
  | nil =>
    intro acc r st
    unfold chunkGo
    cases acc with
    | nil => rfl
    | cons a u => simp
  | cons x t ih =>
    intro acc r st
    unfold chunkGo
    by_cases hr : r ≤ 1
    · rw [if_pos hr]
      rw [List.foldl_cons, ih [] n ((acc ++ [x]).foldl f st)]
      rw [List.nil_append, show acc ++ x :: t = (acc ++ [x]) ++ t by simp]
      simp [List.foldl_append]
    · rw [if_neg hr, ih (acc ++ [x]) (r - 1) st]
      rw [show acc ++ x :: t = (acc ++ [x]) ++ t by simp]

theorem deleteProductsRun_eq_foldl (remote : String → Bool) (n : Nat) (ids : List String) :
    deleteProductsRun remote n ids =
      ids.foldl (deleteStep remote) ⟨⟨ids.length, 0, 0, 0, [], []⟩, []⟩ := by
  unfold deleteProductsRun chunkList
  simpa using chunkGo_foldl (deleteStep remote) n ids [] n ⟨⟨ids.length, 0, 0, 0, [], []⟩, []⟩

theorem deleteFoldl_submitted (remote : String → Bool) :
    ∀ (ids : List String) (st0 : DeleteRunState),
      (ids.foldl (deleteStep remote) st0).submitted =
        st0.submitted ++ ids.filter (fun i => strStartsWith i "PA") := by
  intro ids
  induction ids with
  | nil => intro st0; simp
  | cons i t ih =>
    intro st0
    rw [List.foldl_cons, ih]
    cases h : strStartsWith i "PA"
    · simp [deleteStep, h]
    · cases hr : remote i <;> simp [deleteStep, h, hr]

theorem deleteFoldl_invalidIds (remote : String → Bool) :
    ∀ (ids : List String) (st0 : DeleteRunState),
      (ids.foldl (deleteStep remote) st0).report.invalidIds =
        st0.report.invalidIds ++ ids.filter (fun i => !strStartsWith i "PA") := by
  intro ids
  induction ids with
  | nil => intro st0; simp
  | cons i t ih =>
    intro st0
    rw [List.foldl_cons, ih]
    cases h : strStartsWith i "PA"
    · simp [deleteStep, h]
    · cases hr : remote i <;> simp [deleteStep, h, hr]

theorem deleteFoldl_skipped (remote : String → Bool) :
    ∀ (ids : List String) (st0 : DeleteRunState),
      (ids.foldl (deleteStep remote) st0).report.skipped =
        st0.report.skipped + (ids.filter (fun i => !strStartsWith i "PA")).length := by
  intro ids
  induction ids with
  | nil => intro st0; simp
  | cons i t ih =>
    intro st0
    rw [List.foldl_cons, ih]
    cases h : strStartsWith i "PA"
    · simp [deleteStep, h]
      omega
    · cases hr : remote i <;> simp [deleteStep, h, hr]

theorem deleteFoldl_deleted_failed (remote : String → Bool) :
    ∀ (ids : List String) (st0 : DeleteRunState),
      (ids.foldl (deleteStep remote) st0).report.deleted +
          (ids.foldl (deleteStep remote) st0).report.failed =
        st0.report.deleted + st0.report.failed +
          (ids.filter (fun i => strStartsWith i "PA")).length := by
  intro ids
  induction ids with
  | nil => intro st0; simp
  | cons i t ih =>
    intro st0
    rw [List.foldl_cons, ih]
    cases h : strStartsWith i "PA"
    · simp [deleteStep, h]
    · cases hr : remote i <;> simp [deleteStep, h, hr] <;> omega

theorem deleteFoldl_total (remote : String → Bool) :
    ∀ (ids : List String) (st0 : DeleteRunState),
      (ids.foldl (deleteStep remote) st0).report.total = st0.report.total := by
  intro ids
  induction ids with
  | nil => intro st0; rfl
  | cons i t ih =>
    intro st0
    rw [List.foldl_cons, ih]
    cases h : strStartsWith i "PA"
    · simp [deleteStep, h]
    · cases hr : remote i <;> simp [deleteStep, h, hr]

/-- C8: in the bulk delete flow, every input id that does not start with
the required `"PA"` prefix is never submitted to the remote DELETE call
(everything submitted carries the prefix), increments the `skipped`
counter and is recorded under `invalidIds` in input order, and never
contributes to `deleted` or `failed`, whose sum accounts exactly for the
prefixed ids. -/
theorem claim_C8_prefix_skip (remote : String → Bool) (concurrency : Nat)
    (productIds : List String) (hc : 0 < concurrency) :
    (∀ id ∈ (deleteProductsRun remote concurrency productIds).submitted,
      strStartsWith id "PA" = true) ∧
    (deleteProductsRun remote concurrency productIds).report.skipped =
      (productIds.filter (fun i => !strStartsWith i "PA")).length ∧
    (deleteProductsRun remote concurrency productIds).report.invalidIds =
      productIds.filter (fun i => !strStartsWith i "PA") ∧
    (deleteProductsRun remote concurrency productIds).report.deleted +
        (deleteProductsRun remote concurrency productIds).report.failed =
      (productIds.filter (fun i => strStartsWith i "PA")).length ∧
    (deleteProductsRun remote concurrency productIds).report.total = productIds.length := by
  rw [deleteProductsRun_eq_foldl]
  refine ⟨?_, ?_, ?_, ?_, ?_⟩
  · intro id hid
    rw [deleteFoldl_submitted remote productIds] at hid
    simp only [List.nil_append] at hid
    exact (List.mem_filter.mp hid).2
  · rw [deleteFoldl_skipped remote productIds]
    simp
  · rw [deleteFoldl_invalidIds remote productIds]
    simp
  · rw [deleteFoldl_deleted_failed remote productIds]
    simp
  · rw [deleteFoldl_total remote productIds]

/-- C8 witness: the clauses instantiated on a concrete run containing a
non-prefixed id. -/
theorem claim_C8_prefix_skip_witness :
    strStartsWith "PA1" "PA" = true ∧
    (deleteProductsRun (fun _ => true) 2 ["PA1", "x2", "PA3"]).report.skipped =
      (["PA1", "x2", "PA3"].filter (fun i => !strStartsWith i "PA")).length ∧
    (deleteProductsRun (fun _ => true) 2 ["PA1", "x2", "PA3"]).report.invalidIds =
      ["PA1", "x2", "PA3"].filter (fun i => !strStartsWith i "PA") :=
  ⟨(claim_C8_prefix_skip (fun _ => true) 2 ["PA1", "x2", "PA3"] (by decide)).1 "PA1" (by decide),
   (claim_C8_prefix_skip (fun _ => true) 2 ["PA1", "x2", "PA3"] (by decide)).2.1,
   (claim_C8_prefix_skip (fun _ => true) 2 ["PA1", "x2", "PA3"] (by decide)).2.2.1⟩

theorem insertLe_perm (le : β → β → Bool) (x : β) :
    ∀ l, List.Perm (insertLe le x l) (x :: l) := by
  intro l
  induction l with
  | nil => exact List.Perm.refl _
  | cons y t ih =>
    unfold insertLe
    cases h : le x y
    · simp only [h, Bool.false_eq_true, if_false]
      exact (ih.cons y).trans (List.Perm.swap x y t)
    · simp only [h, if_true]
      exact List.Perm.refl _

theorem sortLe_perm (le : β → β → Bool) : ∀ l, List.Perm (sortLe le l) l := by
  intro l
  induction l with
  | nil => exact List.Perm.refl _
  | cons x t ih =>
    unfold sortLe
    exact (insertLe_perm le x (sortLe le t)).trans (ih.cons x)

theorem insertLe_sorted (key : β → Nat) (x : β) :
    ∀ l, l.Pairwise (fun a b => key a ≤ key b) →
      (insertLe (fun a b => Nat.ble (key a) (key b)) x l).Pairwise
        (fun a b => key a ≤ key b) := by
  intro l
  induction l with
  | nil =>
    intro _
    simp [insertLe]
  | cons y t ih =>
    intro hl
    rw [List.pairwise_cons] at hl
    unfold insertLe
    cases h : Nat.ble (key x) (key y)
    · simp only [h, Bool.false_eq_true, if_false]
      rw [List.pairwise_cons]
      constructor
      · intro z hz
        rcases List.mem_cons.mp ((insertLe_perm _ x t).mem_iff.mp hz) with rfl | hz2
        · have hxy : ¬ key z ≤ key y := by
            rw [← Nat.ble_eq, h]
            simp
          omega
        · exact hl.1 z hz2
      · exact ih hl.2
    · simp only [h, if_true]
      rw [List.pairwise_cons]
      refine ⟨?_, ?_⟩
      · intro z hz
        have hxy : key x ≤ key y := Nat.le_of_ble_eq_true h
        rcases List.mem_cons.mp hz with rfl | hz2
        · exact hxy
        · exact le_trans hxy (hl.1 z hz2)
      · rw [List.pairwise_cons]
        exact ⟨hl.1, hl.2⟩

theorem sortLe_sorted (key : β → Nat) :
    ∀ l, (sortLe (fun a b => Nat.ble (key a) (key b)) l).Pairwise
      (fun a b => key a ≤ key b) := by
  intro l
  induction l with
  | nil => simp [sortLe]
  | cons x t ih =>
    unfold sortLe
    exact insertLe_sorted key x _ ih

theorem perm_pairwise_strict_eq (key : β → Nat) :
    ∀ (l₂ l₁ : List β), List.Perm l₁ l₂ →
      l₁.Pairwise (fun a b => key a ≤ key b) →
      l₂.Pairwise (fun a b => key a < key b) →
      l₁ = l₂ := by
  intro l₂
  induction l₂ with
  | nil =>
    intro l₁ hp _ _
    exact hp.eq_nil
  | cons b t ih =>
    intro l₁ hp h1 h2
    cases l₁ with
    | nil =>
      exact absurd hp.symm.eq_nil (by simp)
    | cons a t₁ =>
      rw [List.pairwise_cons] at h1 h2
      have hab : a = b := by
        rcases List.mem_cons.mp (hp.subset (List.mem_cons_self a t₁)) with h | hat
        · exact h
        · exfalso
          rcases List.mem_cons.mp (hp.symm.subset (List.mem_cons_self b t)) with h | hbt
          · have hlt := h2.1 a hat
            rw [h] at hlt
            omega
          · have hba : key a ≤ key b := h1.1 b hbt
            have hba2 : key b < key a := h2.1 a hat
            omega
      subst hab
      rw [ih t₁ hp.cons_inv h1.2 h2.2]

/-- C7: for a run with `k` persisted page files sharing the run's base
name (and nothing else in the directory matching that prefix with a
`.json` suffix), `consolidateResults` concatenates their item arrays in
ascending numeric page-suffix order regardless of directory order, so the
consolidated item count equals the sum of the per-page item counts, and
exactly those `k` source page files are deleted afterwards. -/
theorem claim_C7_consolidation {α : Type} (dir : List (String × List α)) (base : String)
    (pages : List (String × List α))
    (hne : pages ≠ [])
    (hperm : List.Perm (matchingFiles base dir) pages)
    (hsome : ∀ f ∈ pages, (pageSuffix f.1).isSome = true)
    (hstrict : pages.Pairwise (fun a b => pageKey a < pageKey b)) :
    consolidateResults base dir =
      ConsolidateOutcome.ok (pages.map Prod.snd).flatten (pages.map Prod.fst) ∧
    (pages.map Prod.snd).flatten.length =
      ((pages.map Prod.snd).map List.length).sum := by
  have hsorted_eq :
      sortLe (fun a b => Nat.ble (pageKey a) (pageKey b)) (matchingFiles base dir) = pages := by
    apply perm_pairwise_strict_eq pageKey
    · exact (sortLe_perm _ _).trans hperm
    · exact sortLe_sorted pageKey _
    · exact hstrict
  constructor
  · have hne2 : (matchingFiles base dir).isEmpty = false := by
      cases hm : matchingFiles base dir with
      | nil =>
        rw [hm] at hperm
        exact absurd hperm.symm.eq_nil hne
      | cons f fs => rfl
    have hall : (matchingFiles base dir).all (fun f => (pageSuffix f.1).isSome) = true := by
      rw [List.all_eq_true]
      intro f hf
      exact hsome f (hperm.subset hf)
    simp only [consolidateResults, hne2, hall, Bool.false_eq_true, if_false, Bool.or_true,
      if_true, or_true]
    rw [hsorted_eq]
  · rw [List.length_flatten]

/-- C7 witness: a directory listed out of page order, with an unrelated
file, consolidates into ascending page order with both source files
deleted. -/
theorem claim_C7_consolidation_witness :
    consolidateResults "run" [("run_2.json", [3, 4]), ("x.txt", [9]), ("run_1.json", [1, 2])] =
      ConsolidateOutcome.ok
        (([("run_1.json", [1, 2]), ("run_2.json", ([3, 4] : List Nat))].map Prod.snd).flatten)
        ([("run_1.json", [1, 2]), ("run_2.json", ([3, 4] : List Nat))].map Prod.fst) ∧
    (([("run_1.json", [1, 2]), ("run_2.json", ([3, 4] : List Nat))].map Prod.snd).flatten).length =
      (([("run_1.json", [1, 2]), ("run_2.json", ([3, 4] : List Nat))].map Prod.snd).map
        List.length).sum :=
  claim_C7_consolidation
    [("run_2.json", [3, 4]), ("x.txt", [9]), ("run_1.json", [1, 2])] "run"
    [("run_1.json", [1, 2]), ("run_2.json", [3, 4])]
    (by decide) (by decide) (by decide) (by decide)
